import Mathlib

/-!
Verification development for the ML feedback-loop service
(`services/ml/src`): feature engineering, label construction,
cross-validated training, model-registry persistence, and the
logit-space correction/serving endpoint.

The Python source is shallowly embedded below.  Floating-point values
are modelled by exact rationals (`ℚ`) for inputs and by real numbers
(`ℝ`) where the code applies transcendental functions (`np.log`,
`np.exp`).  Database reads/writes and the boosted-tree library are
treated as opaque capabilities, mirrored by explicit parameters, as
they are external collaborators of the core under verification.
-/

/- ======================================================================
   Correction engine: the logit-correction-renormalization step
   (`app.py`, `predict_correction`, lines 294-305).

       prob = max(0.01, min(0.99, prob))
       logit = np.log(prob / (1 - prob))
       corrected_logit = logit + correction
       corrected[outcome] = 1 / (1 + np.exp(-corrected_logit))
       total = sum(corrected.values())
       corrected = {k: v / total for k, v in corrected.items()}
   ====================================================================== -/

/-- Clip a probability to `[0.01, 0.99]` exactly as
`max(0.01, min(0.99, prob))` does. -/
def clip (p : ℚ) : ℚ := max (1/100) (min (99/100) p)

/-- The logistic function `1 / (1 + exp(-x))` used to invert the logit. -/
noncomputable def logistic (x : ℝ) : ℝ := 1 / (1 + Real.exp (-x))

/-- One outcome's corrected (pre-normalization) probability: clip, take the
logit, add the model's scalar correction, and invert via the logistic. -/
noncomputable def corrected_prob (p : ℚ) (c : ℝ) : ℝ :=
  logistic (Real.log ((clip p : ℝ) / (1 - (clip p : ℝ))) + c)

/-- The full logit-correction-renormalization step of `predict_correction`:
apply `corrected_prob` to every entry of the outcome → probability mapping,
then divide every value by the total. -/
noncomputable def logit_correction_renormalize
    (probs : List (String × ℚ)) (c : ℝ) : List (String × ℝ) :=
  let corrected := probs.map (fun kv => (kv.1, corrected_prob kv.2 c))
  let total := (corrected.map Prod.snd).sum
  corrected.map (fun kv => (kv.1, kv.2 / total))

lemma clip_lower (p : ℚ) : 1/100 ≤ clip p := le_max_left _ _

lemma clip_upper (p : ℚ) : clip p ≤ 99/100 := by
  apply max_le
  · norm_num
  · exact min_le_left _ _

lemma clip_mono {p q : ℚ} (h : p ≤ q) : clip p ≤ clip q := by
  unfold clip
  exact max_le_max le_rfl (min_le_min le_rfl h)

lemma one_add_exp_pos (x : ℝ) : 0 < 1 + Real.exp x := by
  have := Real.exp_pos x
  linarith

lemma logistic_pos (x : ℝ) : 0 < logistic x :=
  div_pos one_pos (one_add_exp_pos (-x))

lemma logistic_lt_one (x : ℝ) : logistic x < 1 := by
  unfold logistic
  rw [div_lt_one (one_add_exp_pos (-x))]
  simpa using Real.exp_pos (-x)

lemma logistic_mono {x y : ℝ} (h : x ≤ y) : logistic x ≤ logistic y := by
  unfold logistic
  apply one_div_le_one_div_of_le (one_add_exp_pos (-y))
  have : Real.exp (-y) ≤ Real.exp (-x) := Real.exp_le_exp.mpr (by linarith)
  linarith

lemma corrected_prob_pos (p : ℚ) (c : ℝ) : 0 < corrected_prob p c :=
  logistic_pos _

lemma corrected_prob_lt_one (p : ℚ) (c : ℝ) : corrected_prob p c < 1 :=
  logistic_lt_one _

lemma corrected_prob_mono {p q : ℚ} (c : ℝ) (h : p ≤ q) :
    corrected_prob p c ≤ corrected_prob q c := by
  unfold corrected_prob
  apply logistic_mono
  have hpq : (clip p : ℝ) ≤ (clip q : ℝ) := by exact_mod_cast clip_mono h
  have hp0 : (0 : ℝ) < (clip p : ℝ) := by
    exact_mod_cast lt_of_lt_of_le (by norm_num : (0:ℚ) < 1/100) (clip_lower p)
  have hq0 : (0 : ℝ) < (clip q : ℝ) := by
    exact_mod_cast lt_of_lt_of_le (by norm_num : (0:ℚ) < 1/100) (clip_lower q)
  have hp1 : (clip p : ℝ) < 1 := by
    have h99 : clip p < 1 := lt_of_le_of_lt (clip_upper p) (by norm_num)
    exact_mod_cast h99
  have hq1 : (clip q : ℝ) < 1 := by
    have h99 : clip q < 1 := lt_of_le_of_lt (clip_upper q) (by norm_num)
    exact_mod_cast h99
  have hodds : (clip p : ℝ) / (1 - (clip p : ℝ)) ≤ (clip q : ℝ) / (1 - (clip q : ℝ)) := by
    rw [div_le_div_iff₀ (by linarith) (by linarith)]
    nlinarith
  have hoddsp : (0 : ℝ) < (clip p : ℝ) / (1 - (clip p : ℝ)) :=
    div_pos hp0 (by linarith)
  have := Real.log_le_log hoddsp hodds
  linarith

lemma list_sum_div (l : List ℝ) (d : ℝ) :
    (l.map (fun x => x / d)).sum = l.sum / d := by
  induction l with
  | nil => simp
  | cons a t ih => simp [ih, add_div]

lemma mem_lt_sum_of_two (l : List ℝ) (hpos : ∀ x ∈ l, 0 < x)
    (hlen : 2 ≤ l.length) : ∀ x ∈ l, x < l.sum := by
  rcases l with _ | ⟨a, t⟩
  · simp at hlen
  have ht : t ≠ [] := by
    cases t with
    | nil => simp at hlen
    | cons _ _ => simp
  have htpos : ∀ x ∈ t, 0 < x := fun x hx => hpos x (List.mem_cons_of_mem _ hx)
  have htsum : 0 < t.sum := List.sum_pos t htpos ht
  intro x hx
  rcases List.mem_cons.mp hx with rfl | hx
  · simp only [List.sum_cons]; linarith
  · have hle : x ≤ t.sum :=
      List.single_le_sum (fun y hy => le_of_lt (htpos y hy)) x hx
    have ha : 0 < a := hpos a (List.mem_cons_self _ _)
    simp only [List.sum_cons]; linarith

lemma lcr_eq (probs : List (String × ℚ)) (c : ℝ) :
    logit_correction_renormalize probs c =
      probs.map (fun kv =>
        (kv.1, corrected_prob kv.2 c /
          (probs.map (fun x => corrected_prob x.2 c)).sum)) := by
  simp only [logit_correction_renormalize, List.map_map]
  rfl

lemma lcr_map_snd (probs : List (String × ℚ)) (c : ℝ) :
    (logit_correction_renormalize probs c).map Prod.snd =
      (probs.map (fun kv => corrected_prob kv.2 c)).map
        (fun v => v / (probs.map (fun kv => corrected_prob kv.2 c)).sum) := by
  rw [lcr_eq]
  simp only [List.map_map]
  rfl

lemma lcr_total_pos (probs : List (String × ℚ)) (c : ℝ) (h : probs ≠ []) :
    0 < (probs.map (fun kv => corrected_prob kv.2 c)).sum := by
  apply List.sum_pos
  · intro x hx
    rcases List.mem_map.mp hx with ⟨kv, _, rfl⟩
    exact corrected_prob_pos _ _
  · simpa using h

/-- **C1 (amended).** For every outcome → probability mapping with at least
*two* outcomes (arbitrary rational entries, including exact 0 and 1) and
every real correction value, the logit-correction-renormalization step of
`predict_correction` returns values that sum to exactly 1 (so in particular
within tolerance 1e-6) and that each lie strictly in (0,1).  (The original
claim also admitted single-outcome mappings, where the renormalized value
is exactly 1; see the counterexample.) -/
theorem claim_C1_amended (probs : List (String × ℚ)) (c : ℝ)
    (h2 : 2 ≤ probs.length) :
    ((logit_correction_renormalize probs c).map Prod.snd).sum = 1 ∧
    |((logit_correction_renormalize probs c).map Prod.snd).sum - 1| ≤ 1/1000000 ∧
    ∀ q ∈ (logit_correction_renormalize probs c).map Prod.snd, 0 < q ∧ q < 1 := by
  have hne : probs ≠ [] := by
    intro h; rw [h] at h2; simp at h2
  have hpos : ∀ x ∈ probs.map (fun kv => corrected_prob kv.2 c), 0 < x := by
    intro x hx
    rcases List.mem_map.mp hx with ⟨kv, _, rfl⟩
    exact corrected_prob_pos _ _
  have hT : 0 < (probs.map (fun kv => corrected_prob kv.2 c)).sum :=
    lcr_total_pos probs c hne
  rw [lcr_map_snd, list_sum_div, div_self (ne_of_gt hT)]
  refine ⟨rfl, by norm_num, ?_⟩
  intro q hq
  rcases List.mem_map.mp hq with ⟨v, hv, rfl⟩
  refine ⟨div_pos (hpos v hv) hT, ?_⟩
  rw [div_lt_one hT]
  exact mem_lt_sum_of_two _ hpos (by simpa using h2) v hv

/-- **C1 witness**: the amended claim at the concrete mapping
{yes: 0, no: 1} (exact 0/1 entries) with correction 2. -/
theorem claim_C1_witness :
    ((logit_correction_renormalize [("yes", 0), ("no", 1)] 2).map Prod.snd).sum = 1 ∧
    |((logit_correction_renormalize [("yes", 0), ("no", 1)] 2).map Prod.snd).sum - 1| ≤ 1/1000000 ∧
    ∀ q ∈ (logit_correction_renormalize [("yes", 0), ("no", 1)] 2).map Prod.snd,
      0 < q ∧ q < 1 :=
  claim_C1_amended [("yes", 0), ("no", 1)] 2 (by decide)

/-- **C1 counterexample**: for the single-outcome mapping {a: 0.5} with
correction 0 the renormalized value is exactly 1, which does *not* lie
strictly in (0,1), refuting the claim as stated (it admitted any mapping
with at least one outcome). -/
theorem claim_C1_counterexample :
    (logit_correction_renormalize [("a", 1/2)] 0).map Prod.snd = [1] ∧
    ¬ (∀ q ∈ (logit_correction_renormalize [("a", 1/2)] 0).map Prod.snd,
        0 < q ∧ q < 1) := by
  have h1 : (logit_correction_renormalize [("a", 1/2)] 0).map Prod.snd = [1] := by
    simp [logit_correction_renormalize]
    exact div_self (ne_of_gt (corrected_prob_pos _ _))
  refine ⟨h1, ?_⟩
  rw [h1]
  intro h
  exact lt_irrefl 1 (h 1 (by simp)).2

/-- **C10.** The correction step preserves the ordering of the input
probabilities: the same scalar correction is added to every outcome's
logit, and clipping, the logit, the logistic, and the shared proportional
renormalization are all monotone, so if entry `i` of the input mapping has
probability at least that of entry `j`, the same holds of the corrected
output. -/
theorem claim_C10 (probs : List (String × ℚ)) (c : ℝ) (h2 : 2 ≤ probs.length)
    (i j : ℕ) (a b : String) (pa pb : ℚ)
    (hi : probs[i]? = some (a, pa)) (hj : probs[j]? = some (b, pb))
    (hord : pb ≤ pa) :
    ∃ qa qb : ℝ,
      (logit_correction_renormalize probs c)[i]? = some (a, qa) ∧
      (logit_correction_renormalize probs c)[j]? = some (b, qb) ∧
      qb ≤ qa := by
  have hne : probs ≠ [] := by
    intro h; rw [h] at h2; simp at h2
  have hT : 0 < (probs.map (fun x => corrected_prob x.2 c)).sum :=
    lcr_total_pos probs c hne
  rw [lcr_eq]
  refine ⟨corrected_prob pa c / (probs.map (fun x => corrected_prob x.2 c)).sum,
         corrected_prob pb c / (probs.map (fun x => corrected_prob x.2 c)).sum,
         ?_, ?_, ?_⟩
  · rw [List.getElem?_map, hi]; rfl
  · rw [List.getElem?_map, hj]; rfl
  · exact (div_le_div_iff_of_pos_right hT).mpr (corrected_prob_mono c hord)

/-- **C10 witness**: the order-preservation theorem applied to the concrete
mapping {a: 0.7, b: 0.3} with correction 1. -/
theorem claim_C10_witness :
    ∃ qa qb : ℝ,
      (logit_correction_renormalize [("a", 7/10), ("b", 3/10)] 1)[0]? = some ("a", qa) ∧
      (logit_correction_renormalize [("a", 7/10), ("b", 3/10)] 1)[1]? = some ("b", qb) ∧
      qb ≤ qa :=
  claim_C10 [("a", 7/10), ("b", 3/10)] 1 (by decide) 0 1 "a" "b" (7/10) (3/10)
    rfl rfl (by norm_num)

/- ======================================================================
   Serving endpoints (`app.py`): request/response schemas and the
   dispatch logic of `predict_correction` (lines 243-329) and
   `predict_post_usefulness` (lines 349-400).

   Model resolution (`get_deployed_model(...) or load_model(...)`) and
   the boosted-tree library calls (feature alignment + `model.predict` +
   `model.feature_importance`) are external capabilities; they are
   mirrored by an `Option` argument and by `Except`-returning step
   parameters (any Python exception raised inside the `try` block is an
   `Except.error` carrying `str(e)`).
   ====================================================================== -/

/-- `PostFeatures` request model (`app.py` lines 25-33), defaults included. -/
structure PostFeaturesIn where
  relevance : ℚ := 0
  stance : ℚ := 0
  strength : ℚ := 0
  credibility : ℚ := 0
  confidence : ℚ := 0
  log_followers : ℚ := 0
  author_verified : Bool := false
deriving Repr, DecidableEq

/-- `MarketFeatures` request model (`app.py` lines 36-41). -/
structure MarketFeaturesIn where
  K : ℤ := 2
  duration_days : ℚ := 0
  avg_posts_per_hour : ℚ := 0
  topic : Option String := none
deriving Repr, DecidableEq

/-- `RecentSummary` request model (`app.py` lines 44-48). -/
structure RecentSummaryIn where
  Wbatch : ℚ := 0
  last_hour_delta : ℚ := 0
  top_post_features : List PostFeaturesIn := []
deriving Repr, DecidableEq

/-- `CorrectionRequest` (`app.py` lines 51-56). -/
structure CorrectionRequest where
  market_id : String
  current_probabilities : List (String × ℚ)
  market_features : MarketFeaturesIn := {}
  recent_summary : RecentSummaryIn := {}
deriving Repr, DecidableEq

/-- A value of the `explain` mapping: the Python handler stores either a
feature-importance number or a diagnostic/error string in that dict. -/
inductive ExplainVal where
  | num (x : ℚ)
  | msg (s : String)
deriving Repr, DecidableEq

/-- `CorrectionResponse` (`app.py` lines 59-64).  Corrected probabilities
are real-valued because the success path applies `exp`/`log`. -/
structure CorrectionResponse where
  probabilities_corrected : List (String × ℝ)
  model_version : String
  confidence : ℚ
  explain : List (String × ExplainVal)

/-- Stable insert for the descending-by-importance sort used by
`sorted(zip(feature_names, importances), key=lambda x: x[1], reverse=True)`. -/
def insert_by_gain (x : String × ℚ) : List (String × ℚ) → List (String × ℚ)
  | [] => [x]
  | y :: ys => if y.2 < x.2 then x :: y :: ys else y :: insert_by_gain x ys

/-- Descending sort by importance value. -/
def sort_by_gain : List (String × ℚ) → List (String × ℚ)
  | [] => []
  | x :: xs => insert_by_gain x (sort_by_gain xs)

/-- The top-5-by-gain explanation payload (`app.py` lines 308-314). -/
def top_importances (l : List (String × ℚ)) : List (String × ℚ) :=
  (sort_by_gain l).take 5

/-- The `/v1/predict/correction` handler (`app.py` lines 243-329).

`model_info` is the result of `get_deployed_model("gbdt_correction") or
load_model("gbdt_correction")` (an opaque model handle of type `α` plus
its version string).  `predict_step` covers the feature assembly, column
alignment and `model.predict(X)[0]` of lines 264-292 and yields the
scalar correction; `explain_step` covers `model.feature_importance` /
`model.feature_name` of lines 307-309.  Either may raise, which the
handler's `try/except` turns into the degraded response. -/
noncomputable def predict_correction {α : Type}
    (model_info : Option (α × String))
    (predict_step : α → CorrectionRequest → Except String ℚ)
    (explain_step : α → Except String (List (String × ℚ)))
    (req : CorrectionRequest) : CorrectionResponse :=
  match model_info with
  | none =>
      { probabilities_corrected :=
          req.current_probabilities.map (fun kv => (kv.1, (kv.2 : ℝ))),
        model_version := "none",
        confidence := 0,
        explain := [("message", ExplainVal.msg "No model available yet")] }
  | some (model, version) =>
      match predict_step model req with
      | Except.error e =>
          { probabilities_corrected :=
              req.current_probabilities.map (fun kv => (kv.1, (kv.2 : ℝ))),
            model_version := version,
            confidence := 0,
            explain := [("error", ExplainVal.msg e)] }
      | Except.ok correction =>
          match explain_step model with
          | Except.error e =>
              { probabilities_corrected :=
                  req.current_probabilities.map (fun kv => (kv.1, (kv.2 : ℝ))),
                model_version := version,
                confidence := 0,
                explain := [("error", ExplainVal.msg e)] }
          | Except.ok importances =>
              { probabilities_corrected :=
                  logit_correction_renormalize req.current_probabilities
                    (correction : ℝ),
                model_version := version,
                confidence := 8/10,
                explain :=
                  (top_importances importances).map
                    (fun kv => (kv.1, ExplainVal.num kv.2)) }

/-- **C2.** The correction endpoint never propagates an internal failure:
with no resolved model it echoes the input probabilities with version
`"none"` and confidence 0, and when any step of the `try` block fails
(feature building / prediction, or explanation extraction) it returns the
original input probabilities with confidence 0 and the error string in
the `explain` field. -/
theorem claim_C2 {α : Type}
    (predict_step : α → CorrectionRequest → Except String ℚ)
    (explain_step : α → Except String (List (String × ℚ)))
    (req : CorrectionRequest) :
    (predict_correction (α := α) none predict_step explain_step req =
      { probabilities_corrected :=
          req.current_probabilities.map (fun kv => (kv.1, (kv.2 : ℝ))),
        model_version := "none",
        confidence := 0,
        explain := [("message", ExplainVal.msg "No model available yet")] }) ∧
    (∀ (model : α) (version : String) (e : String),
      predict_step model req = Except.error e →
      predict_correction (some (model, version)) predict_step explain_step req =
        { probabilities_corrected :=
            req.current_probabilities.map (fun kv => (kv.1, (kv.2 : ℝ))),
          model_version := version,
          confidence := 0,
          explain := [("error", ExplainVal.msg e)] }) ∧
    (∀ (model : α) (version : String) (correction : ℚ) (e : String),
      predict_step model req = Except.ok correction →
      explain_step model = Except.error e →
      predict_correction (some (model, version)) predict_step explain_step req =
        { probabilities_corrected :=
            req.current_probabilities.map (fun kv => (kv.1, (kv.2 : ℝ))),
          model_version := version,
          confidence := 0,
          explain := [("error", ExplainVal.msg e)] }) := by
  refine ⟨rfl, ?_, ?_⟩
  · intro model version e h
    simp [predict_correction, h]
  · intro model version correction e h1 h2
    simp [predict_correction, h1, h2]

/-- **C2 witness**: the degradation theorem at a concrete request whose
prediction step raises `"boom"`. -/
theorem claim_C2_witness :
    predict_correction (α := Unit) (some ((), "v1"))
      (fun _ _ => Except.error "boom") (fun _ => Except.ok [])
      { market_id := "m1", current_probabilities := [("yes", 1/2), ("no", 1/2)] } =
      { probabilities_corrected :=
          [("yes", (1:ℚ)/2), ("no", (1:ℚ)/2)].map (fun kv => (kv.1, (kv.2 : ℝ))),
        model_version := "v1",
        confidence := 0,
        explain := [("error", ExplainVal.msg "boom")] } :=
  (claim_C2 (α := Unit) (fun _ _ => Except.error "boom") (fun _ => Except.ok [])
      { market_id := "m1",
        current_probabilities := [("yes", 1/2), ("no", 1/2)] }).2.1 () "v1" "boom" rfl

/-- `PostUsefulnessRequest` (`app.py` lines 81-85). -/
structure PostUsefulnessRequest where
  post_features : PostFeaturesIn := {}
  market_context : MarketFeaturesIn := {}
  prob_before : ℚ := 1/2
deriving Repr, DecidableEq

/-- `PostUsefulnessResponse` (`app.py` lines 88-92). -/
structure PostUsefulnessResponse where
  usefulness_score : ℚ
  move_toward_truth_prob : ℚ
  model_version : String
deriving Repr, DecidableEq

/-- The `/v1/predict/post_usefulness` handler (`app.py` lines 349-400).
With no resolved model it falls back to the heuristic
`relevance * strength * credibility`; with a model, `predict_step`
abstracts feature preparation plus `model.predict(X)[0]`, whose failure
degrades to the 0.5/0.5 response. -/
def predict_post_usefulness {α : Type}
    (model_info : Option (α × String))
    (predict_step : α → PostUsefulnessRequest → Except String ℚ)
    (req : PostUsefulnessRequest) : PostUsefulnessResponse :=
  match model_info with
  | none =>
      { usefulness_score :=
          req.post_features.relevance * req.post_features.strength *
            req.post_features.credibility,
        move_toward_truth_prob := 1/2,
        model_version := "heuristic" }
  | some (model, version) =>
      match predict_step model req with
      | Except.ok p =>
          { usefulness_score := p,
            move_toward_truth_prob := p,
            model_version := version }
      | Except.error _ =>
          { usefulness_score := 1/2,
            move_toward_truth_prob := 1/2,
            model_version := version }

/-- **C9.** When no usefulness model resolves, the response is the
heuristic product relevance × strength × credibility with
move-toward-truth probability 0.5 and model version `"heuristic"`; in
particular relevance 0.8, strength 0.6, credibility 0.9 (all else
default) yields usefulness score 0.432. -/
theorem claim_C9 {α : Type}
    (predict_step : α → PostUsefulnessRequest → Except String ℚ)
    (req : PostUsefulnessRequest) :
    (predict_post_usefulness (α := α) none predict_step req =
      { usefulness_score :=
          req.post_features.relevance * req.post_features.strength *
            req.post_features.credibility,
        move_toward_truth_prob := 1/2,
        model_version := "heuristic" }) ∧
    (predict_post_usefulness (α := α) none predict_step
        { post_features := { relevance := 8/10, strength := 6/10, credibility := 9/10 } } =
      { usefulness_score := 432/1000,
        move_toward_truth_prob := 1/2,
        model_version := "heuristic" }) := by
  constructor
  · rfl
  · simp only [predict_post_usefulness]
    norm_num

/- ======================================================================
   Label constructor (`etl.py`, `label_posts_with_truth`, lines 236-300).

   Snapshot timestamps are ISO-8601 strings compared lexicographically in
   the source (equivalent to chronological order for uniformly formatted
   stamps); they are modelled here by naturals.  Probability mappings are
   JSON dicts, modelled as association lists with `dict.get`'s 0.5
   default.
   ====================================================================== -/

/-- A probability snapshot row: timestamp plus outcome → probability map. -/
structure Snapshot where
  timestamp : ℕ
  probabilities : List (String × ℚ)
deriving Repr, DecidableEq

/-- `probs.get(outcome_id, 0.5)` on a snapshot's probability dict. -/
def lookup_prob (ps : List (String × ℚ)) (outcome : String) : ℚ :=
  (ps.lookup outcome).getD (1/2)

/-- Insertion step of the timestamp sort (`sort_values("timestamp")`). -/
def insert_snap (s : Snapshot) : List Snapshot → List Snapshot
  | [] => [s]
  | t :: ts =>
      if s.timestamp ≤ t.timestamp then s :: t :: ts else t :: insert_snap s ts

/-- Sort snapshots ascending by timestamp. -/
def sort_snaps : List Snapshot → List Snapshot
  | [] => []
  | s :: ss => insert_snap s (sort_snaps ss)

/-- `before_snaps`: snapshots strictly before the post's scoring time
(`snapshots_df[snapshots_df["timestamp"] < str(scored_at)]`). -/
def before_snaps (snaps : List Snapshot) (scored_at : ℕ) : List Snapshot :=
  (sort_snaps snaps).filter (fun s => decide (s.timestamp < scored_at))

/-- `after_snaps`: snapshots at-or-after the post's scoring time
(`snapshots_df[snapshots_df["timestamp"] >= str(scored_at)]`). -/
def after_snaps (snaps : List Snapshot) (scored_at : ℕ) : List Snapshot :=
  (sort_snaps snaps).filter (fun s => decide (scored_at ≤ s.timestamp))

/-- `prob_before`: winning-outcome probability of the last snapshot strictly
before `scored_at` (`before_snaps.iloc[-1]`), defaulting to the 0.5 prior. -/
def prob_before (snaps : List Snapshot) (winning : String) (scored_at : ℕ) : ℚ :=
  match (before_snaps snaps scored_at).getLast? with
  | none => 1/2
  | some s => lookup_prob s.probabilities winning

/-- `prob_after`: winning-outcome probability of the first snapshot
at-or-after `scored_at` (`after_snaps.iloc[0]`), defaulting to 0.5. -/
def prob_after (snaps : List Snapshot) (winning : String) (scored_at : ℕ) : ℚ :=
  match (after_snaps snaps scored_at).head? with
  | none => 1/2
  | some s => lookup_prob s.probabilities winning

/-- Per-post label row `(prob_before, prob_after, delta_prob,
moved_toward_truth)` of `label_posts_with_truth`. -/
def label_post (snaps : List Snapshot) (winning : String) (scored_at : ℕ) :
    ℚ × ℚ × ℚ × Bool :=
  (prob_before snaps winning scored_at,
   prob_after snaps winning scored_at,
   prob_after snaps winning scored_at - prob_before snaps winning scored_at,
   decide (0 < prob_after snaps winning scored_at - prob_before snaps winning scored_at))

/-- Sort posts (represented by their optional `scored_at` stamps) as
`sort_values("scored_at")` does, missing stamps last. -/
def insert_post (x : Option ℕ) : List (Option ℕ) → List (Option ℕ)
  | [] => [x]
  | y :: ys =>
      match x, y with
      | some a, some b =>
          if a ≤ b then x :: y :: ys else y :: insert_post x ys
      | some _, none => x :: y :: ys
      | none, _ => y :: insert_post x ys

/-- Sort a list of optional scoring stamps ascending, `None` last. -/
def sort_posts : List (Option ℕ) → List (Option ℕ)
  | [] => []
  | x :: xs => insert_post x (sort_posts xs)

/-- `label_posts_with_truth(posts_df, winning_outcome_id, snapshots_df)`
(`etl.py` lines 236-300).  Posts are represented by their `scored_at`
stamps (the only column the labelling logic reads).  The function returns
`none` when the label columns are not added — for an empty post set the
dataframe is returned unchanged, and for an empty snapshot set the whole
labelling block is skipped.  Otherwise each (scored_at-sorted) post gets
the `(prob_before, prob_after, delta_prob, moved_toward_truth)` columns,
with 0.5/0.5 defaults for posts lacking a scoring stamp. -/
def label_posts_with_truth (posts : List (Option ℕ)) (winning : String)
    (snaps : List Snapshot) : Option (List (ℚ × ℚ × ℚ × Bool)) :=
  if posts = [] then none
  else if snaps = [] then none
  else some ((sort_posts posts).map (fun p =>
    match p with
    | some t => label_post snaps winning t
    | none => (1/2, 1/2, 0, false)))

lemma mem_insert_snap {s x : Snapshot} {l : List Snapshot} :
    x ∈ insert_snap s l ↔ x = s ∨ x ∈ l := by
  induction l with
  | nil => simp [insert_snap]
  | cons a t ih =>
      by_cases h : s.timestamp ≤ a.timestamp
      · simp [insert_snap, h]
      · simp [insert_snap, h, ih]
        tauto

lemma mem_sort_snaps {x : Snapshot} {l : List Snapshot} :
    x ∈ sort_snaps l ↔ x ∈ l := by
  induction l with
  | nil => simp [sort_snaps]
  | cons a t ih => simp [sort_snaps, mem_insert_snap, ih]

lemma sorted_insert_snap {s : Snapshot} {l : List Snapshot}
    (h : l.Pairwise (fun a b => a.timestamp ≤ b.timestamp)) :
    (insert_snap s l).Pairwise (fun a b => a.timestamp ≤ b.timestamp) := by
  induction l with
  | nil => simp [insert_snap]
  | cons a t ih =>
      rcases List.pairwise_cons.mp h with ⟨ha, ht⟩
      by_cases hle : s.timestamp ≤ a.timestamp
      · rw [insert_snap, if_pos hle]
        refine List.pairwise_cons.mpr ⟨?_, h⟩
        intro b hb
        rcases List.mem_cons.mp hb with rfl | hb
        · exact hle
        · exact le_trans hle (ha b hb)
      · rw [insert_snap, if_neg hle]
        refine List.pairwise_cons.mpr ⟨?_, ih ht⟩
        intro b hb
        rcases mem_insert_snap.mp hb with rfl | hb
        · exact le_of_not_le hle
        · exact ha b hb

lemma sorted_sort_snaps (l : List Snapshot) :
    (sort_snaps l).Pairwise (fun a b => a.timestamp ≤ b.timestamp) := by
  induction l with
  | nil => simp [sort_snaps]
  | cons a t ih => exact sorted_insert_snap ih

lemma mem_of_getLast?_eq {l : List Snapshot} {a : Snapshot}
    (h : l.getLast? = some a) : a ∈ l := by
  rcases List.mem_getLast?_eq_getLast (l := l) (x := a) h with ⟨hl, rfl⟩
  exact List.getLast_mem hl

lemma mem_of_head?_eq {l : List Snapshot} {a : Snapshot}
    (h : l.head? = some a) : a ∈ l := by
  cases l with
  | nil => simp at h
  | cons b t =>
      rw [List.head?_cons, Option.some_inj] at h
      subst h
      exact List.mem_cons_self _ _

lemma le_getLast_of_sorted {l : List Snapshot}
    (h : l.Pairwise (fun a b => a.timestamp ≤ b.timestamp))
    {last : Snapshot} (hl : l.getLast? = some last) :
    ∀ x ∈ l, x.timestamp ≤ last.timestamp := by
  induction l with
  | nil => simp at hl
  | cons a t ih =>
      rcases List.pairwise_cons.mp h with ⟨ha, ht⟩
      cases t with
      | nil =>
          simp [List.getLast?] at hl
          intro x hx
          rcases List.mem_singleton.mp hx with rfl
          rw [hl]
      | cons b u =>
          have hl2 : (b :: u).getLast? = some last := by
            rw [← hl]; rfl
          intro x hx
          rcases List.mem_cons.mp hx with rfl | hx
          · exact le_trans (ha b (List.mem_cons_self _ _))
              (ih ht hl2 b (List.mem_cons_self _ _))
          · exact ih ht hl2 x hx

lemma head_le_of_sorted {l : List Snapshot}
    (h : l.Pairwise (fun a b => a.timestamp ≤ b.timestamp))
    {hd : Snapshot} (hl : l.head? = some hd) :
    ∀ x ∈ l, hd.timestamp ≤ x.timestamp := by
  cases l with
  | nil => simp at hl
  | cons a t =>
      rcases List.pairwise_cons.mp h with ⟨ha, _⟩
      rw [List.head?_cons, Option.some_inj] at hl
      subst hl
      intro x hx
      rcases List.mem_cons.mp hx with rfl | hx
      · exact le_rfl
      · exact ha x hx

/-- **C3.** For every post with a scoring timestamp and every non-empty
snapshot sequence, label construction takes `prob_before` from the last
snapshot strictly before the scoring timestamp (0.5 if none exists),
`prob_after` from the first snapshot at-or-after it (0.5 if none exists),
and sets `moved_toward_truth` exactly when `prob_after - prob_before > 0`,
so a tie of exactly 0 is labelled false. -/
theorem claim_C3 (snaps : List Snapshot) (winning : String) (scored_at : ℕ)
    (_hne : snaps ≠ []) :
    ((∀ s ∈ snaps, ¬ s.timestamp < scored_at) →
        prob_before snaps winning scored_at = 1/2) ∧
    ((∃ s ∈ snaps, s.timestamp < scored_at) →
      ∃ s, s ∈ snaps ∧ s.timestamp < scored_at ∧
        (∀ u ∈ snaps, u.timestamp < scored_at → u.timestamp ≤ s.timestamp) ∧
        prob_before snaps winning scored_at = lookup_prob s.probabilities winning) ∧
    ((∀ s ∈ snaps, ¬ scored_at ≤ s.timestamp) →
        prob_after snaps winning scored_at = 1/2) ∧
    ((∃ s ∈ snaps, scored_at ≤ s.timestamp) →
      ∃ s, s ∈ snaps ∧ scored_at ≤ s.timestamp ∧
        (∀ u ∈ snaps, scored_at ≤ u.timestamp → s.timestamp ≤ u.timestamp) ∧
        prob_after snaps winning scored_at = lookup_prob s.probabilities winning) ∧
    ((label_post snaps winning scored_at).2.2.2 = true ↔
        prob_before snaps winning scored_at < prob_after snaps winning scored_at) := by
  have hsortmem : ∀ x : Snapshot, x ∈ sort_snaps snaps ↔ x ∈ snaps :=
    fun x => mem_sort_snaps
  have hsorted := sorted_sort_snaps snaps
  refine ⟨?_, ?_, ?_, ?_, ?_⟩
  · intro h
    have hfil : before_snaps snaps scored_at = [] := by
      rw [before_snaps, List.filter_eq_nil_iff]
      intro a ha
      simpa using h a ((hsortmem a).mp ha)
    rw [prob_before, hfil]
    rfl
  · rintro ⟨s, hs, hlt⟩
    have hmem : s ∈ before_snaps snaps scored_at := by
      rw [before_snaps, List.mem_filter]
      exact ⟨(hsortmem s).mpr hs, by simpa using hlt⟩
    rcases hlast : (before_snaps snaps scored_at).getLast? with _ | last
    · rw [List.getLast?_eq_none_iff] at hlast
      rw [hlast] at hmem
      simp at hmem
    · have hlastmem : last ∈ before_snaps snaps scored_at :=
        mem_of_getLast?_eq hlast
      have hlast_in : last ∈ snaps ∧ last.timestamp < scored_at := by
        rw [before_snaps, List.mem_filter] at hlastmem
        exact ⟨(hsortmem last).mp hlastmem.1, by simpa using hlastmem.2⟩
      have hfilsorted :
          (before_snaps snaps scored_at).Pairwise
            (fun a b => a.timestamp ≤ b.timestamp) :=
        List.Pairwise.sublist (List.filter_sublist _) hsorted
      refine ⟨last, hlast_in.1, hlast_in.2, ?_, ?_⟩
      · intro u hu hult
        have humem : u ∈ before_snaps snaps scored_at := by
          rw [before_snaps, List.mem_filter]
          exact ⟨(hsortmem u).mpr hu, by simpa using hult⟩
        exact le_getLast_of_sorted hfilsorted hlast u humem
      · rw [prob_before, hlast]
  · intro h
    have hfil : after_snaps snaps scored_at = [] := by
      rw [after_snaps, List.filter_eq_nil_iff]
      intro a ha
      simpa using h a ((hsortmem a).mp ha)
    rw [prob_after, hfil]
    rfl
  · rintro ⟨s, hs, hle⟩
    have hmem : s ∈ after_snaps snaps scored_at := by
      rw [after_snaps, List.mem_filter]
      exact ⟨(hsortmem s).mpr hs, by simpa using hle⟩
    rcases hhd : (after_snaps snaps scored_at).head? with _ | hd
    · rw [List.head?_eq_none_iff] at hhd
      rw [hhd] at hmem
      simp at hmem
    · have hhdmem : hd ∈ after_snaps snaps scored_at := mem_of_head?_eq hhd
      have hhd_in : hd ∈ snaps ∧ scored_at ≤ hd.timestamp := by
        rw [after_snaps, List.mem_filter] at hhdmem
        exact ⟨(hsortmem hd).mp hhdmem.1, by simpa using hhdmem.2⟩
      have hfilsorted :
          (after_snaps snaps scored_at).Pairwise
            (fun a b => a.timestamp ≤ b.timestamp) :=
        List.Pairwise.sublist (List.filter_sublist _) hsorted
      refine ⟨hd, hhd_in.1, hhd_in.2, ?_, ?_⟩
      · intro u hu hule
        have humem : u ∈ after_snaps snaps scored_at := by
          rw [after_snaps, List.mem_filter]
          exact ⟨(hsortmem u).mpr hu, by simpa using hule⟩
        exact head_le_of_sorted hfilsorted hhd u humem
      · rw [prob_after, hhd]
  · show decide _ = true ↔ _
    rw [decide_eq_true_eq, sub_pos]

/-- **C3 witness**: the labelling theorem at the spec's concrete scenario —
one snapshot at t0 = 10 with winning-outcome probability 0.7 and a post
scored at t0 + 1. -/
theorem claim_C3_witness :
    ((∀ s ∈ [Snapshot.mk 10 [("w", 7/10)]], ¬ s.timestamp < 11) →
        prob_before [Snapshot.mk 10 [("w", 7/10)]] "w" 11 = 1/2) ∧
    ((∃ s ∈ [Snapshot.mk 10 [("w", 7/10)]], s.timestamp < 11) →
      ∃ s, s ∈ [Snapshot.mk 10 [("w", 7/10)]] ∧ s.timestamp < 11 ∧
        (∀ u ∈ [Snapshot.mk 10 [("w", 7/10)]],
          u.timestamp < 11 → u.timestamp ≤ s.timestamp) ∧
        prob_before [Snapshot.mk 10 [("w", 7/10)]] "w" 11 =
          lookup_prob s.probabilities "w") ∧
    ((∀ s ∈ [Snapshot.mk 10 [("w", 7/10)]], ¬ 11 ≤ s.timestamp) →
        prob_after [Snapshot.mk 10 [("w", 7/10)]] "w" 11 = 1/2) ∧
    ((∃ s ∈ [Snapshot.mk 10 [("w", 7/10)]], 11 ≤ s.timestamp) →
      ∃ s, s ∈ [Snapshot.mk 10 [("w", 7/10)]] ∧ 11 ≤ s.timestamp ∧
        (∀ u ∈ [Snapshot.mk 10 [("w", 7/10)]],
          11 ≤ u.timestamp → s.timestamp ≤ u.timestamp) ∧
        prob_after [Snapshot.mk 10 [("w", 7/10)]] "w" 11 =
          lookup_prob s.probabilities "w") ∧
    ((label_post [Snapshot.mk 10 [("w", 7/10)]] "w" 11).2.2.2 = true ↔
        prob_before [Snapshot.mk 10 [("w", 7/10)]] "w" 11 <
          prob_after [Snapshot.mk 10 [("w", 7/10)]] "w" 11) :=
  claim_C3 [Snapshot.mk 10 [("w", 7/10)]] "w" 11 (List.cons_ne_nil _ _)

/- ======================================================================
   Feature extractor (`features.py`, `prepare_market_features`,
   lines 9-115).

   The posts dataframe is modelled as a list of rows with nullable cells
   (`Option`); a column whose cells are all null behaves like an absent
   column (both paths skip the corresponding features, via `dropna` /
   emptiness guards).  The features dict is modelled as an association
   list built in the source's assignment order; keys are distinct, so
   first-match lookup agrees with Python's dict semantics.  A cell value
   is an `FVal`: an exact rational, the square root of a rational (pandas
   `Series.std`), or pandas' NaN (e.g. the standard deviation of a
   single value with the default `ddof=1`).
   ====================================================================== -/

/-- A feature value as stored in the features dict. `FVal.sqrtQ x`
denotes the real number `Real.sqrt x` (only ever applied to `x ≥ 0`,
where the representation is injective); `FVal.nan` is pandas NaN. -/
inductive FVal where
  | q (x : ℚ)
  | sqrtQ (x : ℚ)
  | nan
deriving Repr, DecidableEq

/-- A row of the posts dataframe: every column nullable. -/
structure PostRow where
  relevance : Option ℚ := none
  stance : Option ℚ := none
  strength : Option ℚ := none
  credibility : Option ℚ := none
  confidence : Option ℚ := none
  semantic_strength : Option ℚ := none
  author_id : Option String := none
  log_followers : Option ℚ := none
  author_verified : Option Bool := none
  log_likes : Option ℚ := none
  log_reposts : Option ℚ := none
  log_replies : Option ℚ := none
  log_quotes : Option ℚ := none
  is_sarcasm : Option Bool := none
  is_question : Option Bool := none
  is_rumor : Option Bool := none
  text_length : Option ℚ := none
  has_url : Option Bool := none
  has_hashtag : Option Bool := none
  has_mention : Option Bool := none
  has_numeric : Option Bool := none
  hours_before_resolution : Option ℚ := none
  moved_toward_truth : Option Bool := none
deriving Repr, DecidableEq

/-- The market record fields read by `prepare_market_features`
(timestamps as optional epoch seconds). -/
structure MarketRow where
  created_at : Option ℚ := none
  resolved_at : Option ℚ := none
deriving Repr, DecidableEq

/-- Mean of a pandas Series (already dropna-ed, assumed non-empty). -/
def qMean (l : List ℚ) : ℚ := l.sum / l.length

/-- Max of a non-empty rational list (pandas `Series.max`). -/
def qMaxD : List ℚ → ℚ
  | [] => 0
  | x :: xs => xs.foldl max x

/-- Min of a non-empty rational list (pandas `Series.min`). -/
def qMinD : List ℚ → ℚ
  | [] => 0
  | x :: xs => xs.foldl min x

/-- The sample variance `Σ (x - mean)² / (n - 1)` underlying pandas'
default `Series.std()` (`ddof=1`). -/
def sample_variance (l : List ℚ) : ℚ :=
  ((l.map (fun x => (x - qMean l) ^ 2)).sum) / ((l.length : ℚ) - 1)

/-- Modelled from the spec: the *population* variance `Σ (x - mean)² / n`
that the specification's "population, not sample" wording prescribes for
the per-column standard deviation.  Kept for comparison with the
source's `Series.std()`. -/
def spec_population_variance (l : List ℚ) : ℚ :=
  ((l.map (fun x => (x - qMean l) ^ 2)).sum) / (l.length : ℚ)

/-- pandas `Series.std()` with the default `ddof=1`: NaN for fewer than
two values, otherwise the square root of the sample variance. -/
def pandasStd (l : List ℚ) : FVal :=
  if l.length ≤ 1 then FVal.nan else FVal.sqrtQ (sample_variance l)

/-- pandas `Series.mean()` on a nullable column: skip nulls, NaN if no
value remains. -/
def meanF (l : List (Option ℚ)) : FVal :=
  match l.filterMap id with
  | [] => FVal.nan
  | v => FVal.q (qMean v)

/-- pandas `Series.max()` on a nullable column. -/
def maxF (l : List (Option ℚ)) : FVal :=
  match l.filterMap id with
  | [] => FVal.nan
  | v => FVal.q (qMaxD v)

/-- Mean of a nullable boolean column (`True` counts 1). -/
def boolMeanF (l : List (Option Bool)) : FVal :=
  match l.filterMap id with
  | [] => FVal.nan
  | v => FVal.q (((v.filter (fun b => b)).length : ℚ) / (v.length : ℚ))

/-- `duration_hours`, when both timestamps are present. -/
def durationHours (m : MarketRow) : Option ℚ :=
  match m.created_at, m.resolved_at with
  | some c, some r => some ((r - c) / 3600)
  | _, _ => none

/-- The duration feature block (`features.py` lines 17-26): keys are
absent when either timestamp is missing. -/
def durationBlock (m : MarketRow) : List (String × FVal) :=
  match m.created_at, m.resolved_at with
  | some c, some r =>
      [("duration_hours", FVal.q ((r - c) / 3600)),
       ("duration_days", FVal.q ((r - c) / 86400))]
  | _, _ => []

/-- The scorable columns aggregated at lines 39-46. -/
def scoreCols : List String :=
  ["relevance", "stance", "strength", "credibility", "confidence",
   "semantic_strength"]

/-- Column access `posts_df[col]` for the scorable columns. -/
def scoreVal (col : String) (p : PostRow) : Option ℚ :=
  if col = "relevance" then p.relevance
  else if col = "stance" then p.stance
  else if col = "strength" then p.strength
  else if col = "credibility" then p.credibility
  else if col = "confidence" then p.confidence
  else if col = "semantic_strength" then p.semantic_strength
  else none

/-- The non-null values of a scorable column (`posts_df[col].dropna()`). -/
def colValues (col : String) (posts : List PostRow) : List ℚ :=
  posts.filterMap (scoreVal col)

/-- One scorable column's aggregate features (lines 39-46): mean, std
(pandas sample std), max, min — only when at least one non-null value. -/
def aggBlockFor (col : String) (posts : List PostRow) : List (String × FVal) :=
  let values := colValues col posts
  if 0 < values.length then
    [("mean_" ++ col, FVal.q (qMean values)),
     ("std_" ++ col, pandasStd values),
     ("max_" ++ col, FVal.q (qMaxD values)),
     ("min_" ++ col, FVal.q (qMinD values))]
  else []

/-- Stance-distribution features (lines 49-55). -/
def stanceBlock (posts : List PostRow) : List (String × FVal) :=
  let s := posts.filterMap (fun p => p.stance)
  if 0 < s.length then
    [("stance_positive_ratio", FVal.q (((s.filter (fun x => decide (0 < x))).length : ℚ) / (s.length : ℚ))),
     ("stance_negative_ratio", FVal.q (((s.filter (fun x => decide (x < 0))).length : ℚ) / (s.length : ℚ))),
     ("stance_neutral_ratio", FVal.q (((s.filter (fun x => decide (x = 0))).length : ℚ) / (s.length : ℚ))),
     ("mean_abs_stance", FVal.q (qMean (s.map abs)))]
  else []

/-- Author-diversity features (lines 58-66): unique count, Herfindahl
index, top author share (`value_counts` drops nulls and sorts by count
descending, so the top share is the maximal count over the total). -/
def authorBlock (posts : List PostRow) : List (String × FVal) :=
  let ids := posts.filterMap (fun p => p.author_id)
  ("num_unique_authors", FVal.q ids.dedup.length) ::
  (if 0 < ids.dedup.length then
    [("author_hhi",
        FVal.q ((ids.dedup.map (fun a => ((ids.count a : ℚ) / (ids.length : ℚ)) ^ 2)).sum)),
     ("top_author_share",
        FVal.q (((ids.dedup.map (fun a => (ids.count a : ℚ))).foldr max 0) / (ids.length : ℚ)))]
   else [])

/-- Author-quality features (lines 69-74). -/
def qualityBlock (posts : List PostRow) : List (String × FVal) :=
  [("mean_log_followers", meanF (posts.map (fun p => p.log_followers))),
   ("max_log_followers", maxF (posts.map (fun p => p.log_followers))),
   ("verified_ratio", boolMeanF (posts.map (fun p => p.author_verified)))]

/-- Engagement features (lines 77-80). -/
def engagementBlock (posts : List PostRow) : List (String × FVal) :=
  [("mean_log_likes", meanF (posts.map (fun p => p.log_likes))),
   ("max_log_likes", maxF (posts.map (fun p => p.log_likes))),
   ("mean_log_reposts", meanF (posts.map (fun p => p.log_reposts))),
   ("max_log_reposts", maxF (posts.map (fun p => p.log_reposts))),
   ("mean_log_replies", meanF (posts.map (fun p => p.log_replies))),
   ("max_log_replies", maxF (posts.map (fun p => p.log_replies))),
   ("mean_log_quotes", meanF (posts.map (fun p => p.log_quotes))),
   ("max_log_quotes", maxF (posts.map (fun p => p.log_quotes)))]

/-- Flag-ratio features (lines 83-85). -/
def flagsBlock (posts : List PostRow) : List (String × FVal) :=
  [("is_sarcasm_ratio", boolMeanF (posts.map (fun p => p.is_sarcasm))),
   ("is_question_ratio", boolMeanF (posts.map (fun p => p.is_question))),
   ("is_rumor_ratio", boolMeanF (posts.map (fun p => p.is_rumor)))]

/-- Text features (lines 88-93). -/
def textBlock (posts : List PostRow) : List (String × FVal) :=
  [("mean_text_length", meanF (posts.map (fun p => p.text_length))),
   ("has_url_ratio", boolMeanF (posts.map (fun p => p.has_url))),
   ("has_hashtag_ratio", boolMeanF (posts.map (fun p => p.has_hashtag))),
   ("has_mention_ratio", boolMeanF (posts.map (fun p => p.has_mention))),
   ("has_numeric_ratio", boolMeanF (posts.map (fun p => p.has_numeric)))]

/-- Temporal features (lines 96-103). -/
def temporalBlock (posts : List PostRow) : List (String × FVal) :=
  let hbr := posts.filterMap (fun p => p.hours_before_resolution)
  if 0 < hbr.length then
    [("mean_hours_before_resolution", FVal.q (qMean hbr)),
     ("min_hours_before_resolution", FVal.q (qMinD hbr)),
     ("recent_posts_ratio", FVal.q (((hbr.filter (fun x => decide (x ≤ 24))).length : ℚ) / (hbr.length : ℚ)))]
  else []

/-- Label-distribution feature (lines 106-109). -/
def labelBlock (posts : List PostRow) : List (String × FVal) :=
  let mtt := posts.filterMap (fun p => p.moved_toward_truth)
  if 0 < mtt.length then
    [("moved_toward_truth_ratio",
        FVal.q (((mtt.filter (fun b => b)).length : ℚ) / (mtt.length : ℚ)))]
  else []

/-- `posts_per_hour` (lines 33-36): posts / duration_hours when the
duration feature exists and is positive, else 0. -/
def postsPerHour (m : MarketRow) (posts : List PostRow) : ℚ :=
  match durationHours m with
  | some dh => if 0 < dh then (posts.length : ℚ) / dh else 0
  | none => 0

/-- The post-aggregate branch of `prepare_market_features` taken when the
post collection is non-empty (lines 29-109). -/
def nonEmptyBlock (m : MarketRow) (posts : List PostRow) : List (String × FVal) :=
  ("num_posts", FVal.q posts.length) ::
  ("posts_per_hour", FVal.q (postsPerHour m posts)) ::
  (scoreCols.flatMap (fun col => aggBlockFor col posts)
    ++ stanceBlock posts ++ authorBlock posts ++ qualityBlock posts
    ++ engagementBlock posts ++ flagsBlock posts ++ textBlock posts
    ++ temporalBlock posts ++ labelBlock posts)

/-- `prepare_market_features(market, posts_df)` (`features.py` lines
9-115): the features dict in assignment order. -/
def prepare_market_features (m : MarketRow) (posts : List PostRow) :
    List (String × FVal) :=
  ("K", FVal.q 2) ::
  durationBlock m ++
  (if posts = [] then
    [("num_posts", FVal.q 0), ("posts_per_hour", FVal.q 0)]
   else nonEmptyBlock m posts)

lemma lookup_append_right {β : Type} (k : String) (l1 l2 : List (String × β))
    (h : ∀ p ∈ l1, p.1 ≠ k) : (l1 ++ l2).lookup k = l2.lookup k := by
  induction l1 with
  | nil => rfl
  | cons a t ih =>
      rcases a with ⟨k1, v1⟩
      have h1 : k1 ≠ k := h (k1, v1) (List.mem_cons_self _ _)
      have hb : (k == k1) = false := beq_false_of_ne (fun hk => h1 hk.symm)
      simp only [List.cons_append, List.lookup, hb]
      exact ih (fun p hp => h p (List.mem_cons_of_mem _ hp))

lemma lookup_eq_none_of_notin {β : Type} (k : String) (l : List (String × β))
    (h : ∀ p ∈ l, p.1 ≠ k) : l.lookup k = none := by
  rw [← List.append_nil l, lookup_append_right k l [] h]
  rfl

lemma durationBlock_keys (m : MarketRow) :
    ∀ p ∈ durationBlock m, p.1 = "duration_hours" ∨ p.1 = "duration_days" := by
  rcases m with ⟨c, r⟩
  cases c <;> cases r <;> simp [durationBlock]

lemma aggBlockFor_keys (col : String) (posts : List PostRow) :
    ∀ p ∈ aggBlockFor col posts,
      p.1 = "mean_" ++ col ∨ p.1 = "std_" ++ col ∨
      p.1 = "max_" ++ col ∨ p.1 = "min_" ++ col := by
  simp only [aggBlockFor]
  split <;> simp

lemma lookup_cons_ne {β : Type} (k k1 : String) (v : β) (l : List (String × β))
    (h : k ≠ k1) : List.lookup k ((k1, v) :: l) = List.lookup k l := by
  simp [List.lookup, beq_false_of_ne h]

lemma lookup_cons_self {β : Type} (k : String) (v : β) (l : List (String × β)) :
    List.lookup k ((k, v) :: l) = some v := by
  simp [List.lookup]

lemma string_append_right_ne (s a b : String) (h : a ≠ b) : s ++ a ≠ s ++ b := by
  intro he
  apply h
  have hd := congrArg String.data he
  rw [String.data_append, String.data_append] at hd
  exact String.ext (List.append_cancel_left hd)

lemma string_append_ne_of_take2 (s t a b : String)
    (hs : 2 ≤ s.data.length) (ht : 2 ≤ t.data.length)
    (h : s.data.take 2 ≠ t.data.take 2) : s ++ a ≠ t ++ b := by
  intro he
  apply h
  have hd := congrArg String.data he
  rw [String.data_append, String.data_append] at hd
  have h2 := congrArg (List.take 2) hd
  rwa [List.take_append_of_le_length hs, List.take_append_of_le_length ht] at h2

lemma std_key_ne_mean (col : String) : ("std_" ++ col) ≠ ("mean_" ++ col) :=
  string_append_ne_of_take2 _ _ _ _ (by decide) (by decide) (by decide)

lemma max_key_ne_mean (col : String) : ("max_" ++ col) ≠ ("mean_" ++ col) :=
  string_append_ne_of_take2 _ _ _ _ (by decide) (by decide) (by decide)

lemma max_key_ne_std (col : String) : ("max_" ++ col) ≠ ("std_" ++ col) :=
  string_append_ne_of_take2 _ _ _ _ (by decide) (by decide) (by decide)

lemma min_key_ne_mean (col : String) : ("min_" ++ col) ≠ ("mean_" ++ col) :=
  string_append_ne_of_take2 _ _ _ _ (by decide) (by decide) (by decide)

lemma min_key_ne_std (col : String) : ("min_" ++ col) ≠ ("std_" ++ col) :=
  string_append_ne_of_take2 _ _ _ _ (by decide) (by decide) (by decide)

lemma min_key_ne_max (col : String) : ("min_" ++ col) ≠ ("max_" ++ col) :=
  string_append_ne_of_take2 _ _ _ _ (by decide) (by decide) (by decide)

lemma lookup_agg_mean (col : String) (posts : List PostRow)
    (hvals : 0 < (colValues col posts).length) (rest : List (String × FVal)) :
    List.lookup ("mean_" ++ col) (aggBlockFor col posts ++ rest) =
      some (FVal.q (qMean (colValues col posts))) := by
  simp only [aggBlockFor, if_pos hvals, List.cons_append]
  rw [lookup_cons_self]

lemma lookup_agg_std (col : String) (posts : List PostRow)
    (hvals : 0 < (colValues col posts).length) (rest : List (String × FVal)) :
    List.lookup ("std_" ++ col) (aggBlockFor col posts ++ rest) =
      some (pandasStd (colValues col posts)) := by
  simp only [aggBlockFor, if_pos hvals, List.cons_append]
  rw [lookup_cons_ne _ _ _ _ (std_key_ne_mean col), lookup_cons_self]

lemma lookup_agg_max (col : String) (posts : List PostRow)
    (hvals : 0 < (colValues col posts).length) (rest : List (String × FVal)) :
    List.lookup ("max_" ++ col) (aggBlockFor col posts ++ rest) =
      some (FVal.q (qMaxD (colValues col posts))) := by
  simp only [aggBlockFor, if_pos hvals, List.cons_append]
  rw [lookup_cons_ne _ _ _ _ (max_key_ne_mean col),
    lookup_cons_ne _ _ _ _ (max_key_ne_std col), lookup_cons_self]

lemma lookup_agg_min (col : String) (posts : List PostRow)
    (hvals : 0 < (colValues col posts).length) (rest : List (String × FVal)) :
    List.lookup ("min_" ++ col) (aggBlockFor col posts ++ rest) =
      some (FVal.q (qMinD (colValues col posts))) := by
  simp only [aggBlockFor, if_pos hvals, List.cons_append]
  rw [lookup_cons_ne _ _ _ _ (min_key_ne_mean col),
    lookup_cons_ne _ _ _ _ (min_key_ne_std col),
    lookup_cons_ne _ _ _ _ (min_key_ne_max col), lookup_cons_self]

lemma sample_ne_population (l : List ℚ) (h2 : 2 ≤ l.length)
    (hSS : (l.map (fun x => (x - qMean l) ^ 2)).sum ≠ 0) :
    sample_variance l ≠ spec_population_variance l := by
  intro heq
  have hn : (2:ℚ) ≤ (l.length : ℚ) := by exact_mod_cast h2
  have h1 : ((l.length : ℚ) - 1) ≠ 0 := by
    intro h
    rw [sub_eq_zero] at h
    rw [h] at hn
    norm_num at hn
  have h0 : ((l.length : ℚ)) ≠ 0 := by
    intro h
    rw [h] at hn
    norm_num at hn
  rw [sample_variance, spec_population_variance, div_eq_div_iff h1 h0] at heq
  apply hSS
  linear_combination heq

/-- **C4 (amended).** For every non-empty post collection and every
scorable column with at least one non-null value, the market-level
aggregation stores that column's mean, *sample* standard deviation
(pandas `Series.std()` with its default `ddof=1`: NaN for a single value,
`sqrt(SS/(n-1))` otherwise), max, and min — not the *population* standard
deviation the original claim states: whenever the column has at least two
values and a non-zero sum of squared deviations, the sample variance
differs from the population variance prescribed by the spec. -/
theorem claim_C4_amended (m : MarketRow) (posts : List PostRow) (col : String)
    (hposts : posts ≠ []) (hcol : col ∈ scoreCols)
    (hvals : 0 < (colValues col posts).length) :
    (prepare_market_features m posts).lookup ("mean_" ++ col) =
      some (FVal.q (qMean (colValues col posts))) ∧
    (prepare_market_features m posts).lookup ("std_" ++ col) =
      some (pandasStd (colValues col posts)) ∧
    (prepare_market_features m posts).lookup ("max_" ++ col) =
      some (FVal.q (qMaxD (colValues col posts))) ∧
    (prepare_market_features m posts).lookup ("min_" ++ col) =
      some (FVal.q (qMinD (colValues col posts))) ∧
    (2 ≤ (colValues col posts).length →
      ((colValues col posts).map
        (fun x => (x - qMean (colValues col posts)) ^ 2)).sum ≠ 0 →
      sample_variance (colValues col posts) ≠
        spec_population_variance (colValues col posts)) := by
  simp only [scoreCols, List.mem_cons, List.not_mem_nil, or_false] at hcol
  rcases hcol with rfl | rfl | rfl | rfl | rfl | rfl
  · refine ⟨?_, ?_, ?_, ?_, fun h2 hSS => sample_ne_population _ h2 hSS⟩
    all_goals
      simp only [prepare_market_features, nonEmptyBlock, scoreCols, if_neg hposts,
        List.flatMap_cons, List.flatMap_nil, List.append_nil, List.append_assoc]
      rw [lookup_append_right _ (("K", FVal.q 2) :: durationBlock m) _
        (by
          intro p hp
          rcases List.mem_cons.mp hp with rfl | hp
          · decide
          · rcases durationBlock_keys m p hp with h | h <;> (rw [h]; decide))]
      rw [lookup_cons_ne _ _ _ _ (by decide)]
      rw [lookup_cons_ne _ _ _ _ (by decide)]
    exacts [lookup_agg_mean _ _ hvals _, lookup_agg_std _ _ hvals _,
      lookup_agg_max _ _ hvals _, lookup_agg_min _ _ hvals _]
  · refine ⟨?_, ?_, ?_, ?_, fun h2 hSS => sample_ne_population _ h2 hSS⟩
    all_goals
      simp only [prepare_market_features, nonEmptyBlock, scoreCols, if_neg hposts,
        List.flatMap_cons, List.flatMap_nil, List.append_nil, List.append_assoc]
      rw [lookup_append_right _ (("K", FVal.q 2) :: durationBlock m) _
        (by
          intro p hp
          rcases List.mem_cons.mp hp with rfl | hp
          · decide
          · rcases durationBlock_keys m p hp with h | h <;> (rw [h]; decide))]
      rw [lookup_cons_ne _ _ _ _ (by decide)]
      rw [lookup_cons_ne _ _ _ _ (by decide)]
      rw [lookup_append_right _ (aggBlockFor "relevance" posts) _
        (fun p hp => by
          rcases aggBlockFor_keys _ _ p hp with h | h | h | h <;> (rw [h]; decide))]
    exacts [lookup_agg_mean _ _ hvals _, lookup_agg_std _ _ hvals _,
      lookup_agg_max _ _ hvals _, lookup_agg_min _ _ hvals _]
  · refine ⟨?_, ?_, ?_, ?_, fun h2 hSS => sample_ne_population _ h2 hSS⟩
    all_goals
      simp only [prepare_market_features, nonEmptyBlock, scoreCols, if_neg hposts,
        List.flatMap_cons, List.flatMap_nil, List.append_nil, List.append_assoc]
      rw [lookup_append_right _ (("K", FVal.q 2) :: durationBlock m) _
        (by
          intro p hp
          rcases List.mem_cons.mp hp with rfl | hp
          · decide
          · rcases durationBlock_keys m p hp with h | h <;> (rw [h]; decide))]
      rw [lookup_cons_ne _ _ _ _ (by decide)]
      rw [lookup_cons_ne _ _ _ _ (by decide)]
      rw [lookup_append_right _ (aggBlockFor "relevance" posts) _
        (fun p hp => by
          rcases aggBlockFor_keys _ _ p hp with h | h | h | h <;> (rw [h]; decide))]
      rw [lookup_append_right _ (aggBlockFor "stance" posts) _
        (fun p hp => by
          rcases aggBlockFor_keys _ _ p hp with h | h | h | h <;> (rw [h]; decide))]
    exacts [lookup_agg_mean _ _ hvals _, lookup_agg_std _ _ hvals _,
      lookup_agg_max _ _ hvals _, lookup_agg_min _ _ hvals _]
  · refine ⟨?_, ?_, ?_, ?_, fun h2 hSS => sample_ne_population _ h2 hSS⟩
    all_goals
      simp only [prepare_market_features, nonEmptyBlock, scoreCols, if_neg hposts,
        List.flatMap_cons, List.flatMap_nil, List.append_nil, List.append_assoc]
      rw [lookup_append_right _ (("K", FVal.q 2) :: durationBlock m) _
        (by
          intro p hp
          rcases List.mem_cons.mp hp with rfl | hp
          · decide
          · rcases durationBlock_keys m p hp with h | h <;> (rw [h]; decide))]
      rw [lookup_cons_ne _ _ _ _ (by decide)]
      rw [lookup_cons_ne _ _ _ _ (by decide)]
      rw [lookup_append_right _ (aggBlockFor "relevance" posts) _
        (fun p hp => by
          rcases aggBlockFor_keys _ _ p hp with h | h | h | h <;> (rw [h]; decide))]
      rw [lookup_append_right _ (aggBlockFor "stance" posts) _
        (fun p hp => by
          rcases aggBlockFor_keys _ _ p hp with h | h | h | h <;> (rw [h]; decide))]
      rw [lookup_append_right _ (aggBlockFor "strength" posts) _
        (fun p hp => by
          rcases aggBlockFor_keys _ _ p hp with h | h | h | h <;> (rw [h]; decide))]
    exacts [lookup_agg_mean _ _ hvals _, lookup_agg_std _ _ hvals _,
      lookup_agg_max _ _ hvals _, lookup_agg_min _ _ hvals _]
  · refine ⟨?_, ?_, ?_, ?_, fun h2 hSS => sample_ne_population _ h2 hSS⟩
    all_goals
      simp only [prepare_market_features, nonEmptyBlock, scoreCols, if_neg hposts,
        List.flatMap_cons, List.flatMap_nil, List.append_nil, List.append_assoc]
      rw [lookup_append_right _ (("K", FVal.q 2) :: durationBlock m) _
        (by
          intro p hp
          rcases List.mem_cons.mp hp with rfl | hp
          · decide
          · rcases durationBlock_keys m p hp with h | h <;> (rw [h]; decide))]
      rw [lookup_cons_ne _ _ _ _ (by decide)]
      rw [lookup_cons_ne _ _ _ _ (by decide)]
      rw [lookup_append_right _ (aggBlockFor "relevance" posts) _
        (fun p hp => by
          rcases aggBlockFor_keys _ _ p hp with h | h | h | h <;> (rw [h]; decide))]
      rw [lookup_append_right _ (aggBlockFor "stance" posts) _
        (fun p hp => by
          rcases aggBlockFor_keys _ _ p hp with h | h | h | h <;> (rw [h]; decide))]
      rw [lookup_append_right _ (aggBlockFor "strength" posts) _
        (fun p hp => by
          rcases aggBlockFor_keys _ _ p hp with h | h | h | h <;> (rw [h]; decide))]
      rw [lookup_append_right _ (aggBlockFor "credibility" posts) _
        (fun p hp => by
          rcases aggBlockFor_keys _ _ p hp with h | h | h | h <;> (rw [h]; decide))]
    exacts [lookup_agg_mean _ _ hvals _, lookup_agg_std _ _ hvals _,
      lookup_agg_max _ _ hvals _, lookup_agg_min _ _ hvals _]
  · refine ⟨?_, ?_, ?_, ?_, fun h2 hSS => sample_ne_population _ h2 hSS⟩
    all_goals
      simp only [prepare_market_features, nonEmptyBlock, scoreCols, if_neg hposts,
        List.flatMap_cons, List.flatMap_nil, List.append_nil, List.append_assoc]
      rw [lookup_append_right _ (("K", FVal.q 2) :: durationBlock m) _
        (by
          intro p hp
          rcases List.mem_cons.mp hp with rfl | hp
          · decide
          · rcases durationBlock_keys m p hp with h | h <;> (rw [h]; decide))]
      rw [lookup_cons_ne _ _ _ _ (by decide)]
      rw [lookup_cons_ne _ _ _ _ (by decide)]
      rw [lookup_append_right _ (aggBlockFor "relevance" posts) _
        (fun p hp => by
          rcases aggBlockFor_keys _ _ p hp with h | h | h | h <;> (rw [h]; decide))]
      rw [lookup_append_right _ (aggBlockFor "stance" posts) _
        (fun p hp => by
          rcases aggBlockFor_keys _ _ p hp with h | h | h | h <;> (rw [h]; decide))]
      rw [lookup_append_right _ (aggBlockFor "strength" posts) _
        (fun p hp => by
          rcases aggBlockFor_keys _ _ p hp with h | h | h | h <;> (rw [h]; decide))]
      rw [lookup_append_right _ (aggBlockFor "credibility" posts) _
        (fun p hp => by
          rcases aggBlockFor_keys _ _ p hp with h | h | h | h <;> (rw [h]; decide))]
      rw [lookup_append_right _ (aggBlockFor "confidence" posts) _
        (fun p hp => by
          rcases aggBlockFor_keys _ _ p hp with h | h | h | h <;> (rw [h]; decide))]
    exacts [lookup_agg_mean _ _ hvals _, lookup_agg_std _ _ hvals _,
      lookup_agg_max _ _ hvals _, lookup_agg_min _ _ hvals _]

/-- **C4 counterexample**: for a market with two posts whose `relevance`
values are 0 and 1, the stored `std_relevance` is the *sample* standard
deviation `sqrt(1/2)` (pandas `ddof=1`), not the population standard
deviation `sqrt(1/4)` that the claim asserts; the two real values differ. -/
theorem claim_C4_counterexample :
    (prepare_market_features { created_at := none, resolved_at := none }
        [{ relevance := some 0 }, { relevance := some 1 }]).lookup "std_relevance" =
      some (FVal.sqrtQ (1/2)) ∧
    spec_population_variance [0, 1] = 1/4 ∧
    (prepare_market_features { created_at := none, resolved_at := none }
        [{ relevance := some 0 }, { relevance := some 1 }]).lookup "std_relevance" ≠
      some (FVal.sqrtQ (1/4)) ∧
    Real.sqrt (1/2) ≠ Real.sqrt (1/4) := by
  have hcv : colValues "relevance"
      [{ relevance := some 0 }, { relevance := some 1 }] = [0, 1] := by decide
  have hvals : 0 < (colValues "relevance"
      [{ relevance := some 0 }, { relevance := some 1 }]).length := by decide
  have hstd : pandasStd (colValues "relevance"
      [{ relevance := some 0 }, { relevance := some 1 }]) = FVal.sqrtQ (1/2) := by
    rw [hcv]
    rw [pandasStd, if_neg (by norm_num)]
    congr 1
    rw [sample_variance]
    norm_num [qMean]
  have hlook : (prepare_market_features { created_at := none, resolved_at := none }
      [{ relevance := some 0 }, { relevance := some 1 }]).lookup "std_relevance" =
      some (FVal.sqrtQ (1/2)) := by
    rw [(by decide : ("std_relevance" : String) = "std_" ++ "relevance")]
    simp only [prepare_market_features, nonEmptyBlock, scoreCols,
      if_neg (by decide : ¬([{ relevance := some 0 },
        { relevance := some 1 }] : List PostRow) = []),
      List.flatMap_cons, List.flatMap_nil, List.append_nil, List.append_assoc]
    rw [lookup_append_right _ (("K", FVal.q 2) ::
        durationBlock { created_at := none, resolved_at := none }) _
      (by
        intro p hp
        rcases List.mem_cons.mp hp with rfl | hp
        · decide
        · rcases durationBlock_keys _ p hp with h | h <;> (rw [h]; decide))]
    rw [lookup_cons_ne _ _ _ _ (by decide)]
    rw [lookup_cons_ne _ _ _ _ (by decide)]
    rw [lookup_agg_std _ _ hvals, hstd]
  refine ⟨hlook, ?_, ?_, ?_⟩
  · rw [spec_population_variance]
    norm_num [qMean]
  · rw [hlook]
    intro h
    rw [Option.some_inj] at h
    have : (1/2 : ℚ) = 1/4 := by injection h
    norm_num at this
  · exact ne_of_gt (Real.sqrt_lt_sqrt (by norm_num) (by norm_num))

/-- **C4 witness**: the amended claim at a concrete market with two posts
whose relevance column holds 0 and 1. -/
theorem claim_C4_witness :
    (prepare_market_features { created_at := none, resolved_at := none }
        [{ relevance := some 0 }, { relevance := some 1 }]).lookup ("std_" ++ "relevance") =
      some (pandasStd (colValues "relevance"
        [{ relevance := some 0 }, { relevance := some 1 }])) ∧
    sample_variance (colValues "relevance"
        [{ relevance := some 0 }, { relevance := some 1 }]) ≠
      spec_population_variance (colValues "relevance"
        [{ relevance := some 0 }, { relevance := some 1 }]) := by
  have hcv : colValues "relevance"
      [{ relevance := some 0 }, { relevance := some 1 }] = [0, 1] := by decide
  have h := claim_C4_amended { created_at := none, resolved_at := none }
    [{ relevance := some 0 }, { relevance := some 1 }] "relevance"
    (by decide) (by decide) (by decide)
  refine ⟨h.2.1, h.2.2.2.2 (by rw [hcv]; decide) ?_⟩
  rw [hcv]
  norm_num [qMean]

/-- **C5 (amended).** For every market record, market-level feature
extraction on an empty post collection yields `num_posts = 0` and
`posts_per_hour = 0` but *omits* every per-column aggregate feature
(mean, std, max, min of each scorable column) from the returned mapping,
rather than storing zeros for them (downstream consumers zero-fill the
missing columns). -/
theorem claim_C5_amended (m : MarketRow) :
    (prepare_market_features m []).lookup "num_posts" = some (FVal.q 0) ∧
    (prepare_market_features m []).lookup "posts_per_hour" = some (FVal.q 0) ∧
    ∀ col ∈ scoreCols,
      (prepare_market_features m []).lookup ("mean_" ++ col) = none ∧
      (prepare_market_features m []).lookup ("std_" ++ col) = none ∧
      (prepare_market_features m []).lookup ("max_" ++ col) = none ∧
      (prepare_market_features m []).lookup ("min_" ++ col) = none := by
  obtain ⟨c, r⟩ := m
  refine ⟨?_, ?_, ?_⟩
  · cases c <;> cases r <;> simp [prepare_market_features, durationBlock, List.lookup]
  · cases c <;> cases r <;> simp [prepare_market_features, durationBlock, List.lookup]
  · intro col hcol
    simp only [scoreCols, List.mem_cons, List.not_mem_nil, or_false] at hcol
    rcases hcol with rfl | rfl | rfl | rfl | rfl | rfl <;>
      refine ⟨?_, ?_, ?_, ?_⟩ <;>
      · cases c <;> cases r <;>
          simp [prepare_market_features, durationBlock, List.lookup]

/-- **C5 counterexample**: with an empty post collection the
`mean_relevance` aggregate is absent from the features dict (lookup gives
`none`), not the zero value the claim asserts. -/
theorem claim_C5_counterexample :
    (prepare_market_features { created_at := none, resolved_at := none }
        []).lookup "mean_relevance" = none ∧
    (prepare_market_features { created_at := none, resolved_at := none }
        []).lookup "mean_relevance" ≠ some (FVal.q 0) := by
  refine ⟨by decide, by decide⟩

/-- **C5 witness**: the amended claim at a concrete market record,
instantiated at the `relevance` column. -/
theorem claim_C5_witness :
    (prepare_market_features { created_at := none, resolved_at := none }
        []).lookup "num_posts" = some (FVal.q 0) ∧
    (prepare_market_features { created_at := none, resolved_at := none }
        []).lookup ("mean_" ++ "relevance") = none :=
  ⟨(claim_C5_amended { created_at := none, resolved_at := none }).1,
   ((claim_C5_amended { created_at := none, resolved_at := none }).2.2
      "relevance" (by decide)).1⟩

/- ======================================================================
   Training orchestrator and model registry (`train_gbdt.py`).

   LightGBM training itself is opaque (external library): a
   cross-validation run is represented by the per-fold results
   `(trained model, held-out RMSE)` that the fold loop of
   `train_correction_model` (lines 85-122) iterates over, and
   `train_and_save` (lines 191-269) is modelled from the minimum-sample
   gate onward, with the database insert's success supplied as a flag
   (the `try/except` around it swallows failures).  Side effects
   (artifact writes, registry inserts, console reports) are tracked
   explicitly.
   ====================================================================== -/

/-- `config.min_resolved_markets_gbdt` (`config.py` line 25). -/
def min_resolved_markets_gbdt : ℕ := 50

/-- The fold-selection loop of `train_correction_model`: starting from
`best_model = None, best_score = float("inf")`, replace the running best
whenever a fold's validation RMSE is strictly smaller.  Fold results are
`(model, rmse)` pairs in training order; `WithTop ℚ` models the initial
infinity. -/
def fold_step {α : Type} (acc : Option α × WithTop ℚ) (cur : α × ℚ) :
    Option α × WithTop ℚ :=
  if (cur.2 : WithTop ℚ) < acc.2 then (some cur.1, (cur.2 : WithTop ℚ)) else acc

def train_correction_model {α : Type} (folds : List (α × ℚ)) :
    Option α × WithTop ℚ :=
  folds.foldl fold_step (none, ⊤)

/-- A `model_registry` metadata record as inserted by `save_model`
(`train_gbdt.py` lines 171-183); only the claim-relevant fields are kept
(`metrics`, `feature_importances`, `hyperparameters` are opaque JSON
payloads). -/
structure RegistryRecord where
  model_id : String
  name : String
  version : String
  model_type : String
  train_size : ℕ
  approved : Bool
  deployed : Bool
deriving Repr, DecidableEq

/-- The observable outcome of a training/persistence call: the returned
value plus the tracked side effects. -/
structure SaveOutcome where
  result : Option String
  artifactWrites : List String
  registryInserts : List RegistryRecord
  messages : List String
deriving Repr, DecidableEq

/-- `save_model(model, name, version, ...)` (`train_gbdt.py` lines
148-188): dump the artifact under `models/name/version.pkl`, then try to
insert the metadata record (`approved=False, deployed=False`); an insert
failure (`insert_ok = false`) is reported as a warning and swallowed,
and the generated `model_id` is returned either way.  The freshly
generated `uuid4` and the insert's success are explicit parameters. -/
def save_model (model_id : String) (insert_ok : Bool)
    (name version : String) (train_size : ℕ) : SaveOutcome :=
  let path := name ++ "/" ++ version ++ ".pkl"
  if insert_ok then
    { result := some model_id,
      artifactWrites := [path],
      registryInserts :=
        [{ model_id := model_id, name := name, version := version,
           model_type := "gbdt", train_size := train_size,
           approved := false, deployed := false }],
      messages := ["Saved model", "Registered model in database"] }
  else
    { result := some model_id,
      artifactWrites := [path],
      registryInserts := [],
      messages := ["Saved model", "Warning: Could not register model in database"] }

/-- `train_and_save(version)` (`train_gbdt.py` lines 191-269) from the
minimum-sample gate on: below `config.min_resolved_markets_gbdt` resolved
markets it reports the shortfall and returns `None` without writing
anything; otherwise the dataset preparation and LightGBM training run
(opaque here) and the trained model is persisted via `save_model` with
`train_size = len(X)` (one row per resolved market). -/
def train_and_save (markets : List MarketRow) (model_id : String)
    (insert_ok : Bool) (name version : String) : SaveOutcome :=
  if markets.length < min_resolved_markets_gbdt then
    { result := none,
      artifactWrites := [],
      registryInserts := [],
      messages := ["Not enough resolved markets", "Waiting for more data before training..."] }
  else
    save_model model_id insert_ok name version markets.length

/-- **C6.** With fewer resolved markets than the configured minimum (50
for the correction model), training refuses to run: it reports the
shortfall, returns no model identifier, and writes neither a registry
record nor an artifact. -/
theorem claim_C6 (markets : List MarketRow) (model_id : String)
    (insert_ok : Bool) (name version : String)
    (h : markets.length < min_resolved_markets_gbdt) :
    (train_and_save markets model_id insert_ok name version).result = none ∧
    (train_and_save markets model_id insert_ok name version).artifactWrites = [] ∧
    (train_and_save markets model_id insert_ok name version).registryInserts = [] ∧
    "Not enough resolved markets" ∈
      (train_and_save markets model_id insert_ok name version).messages := by
  rw [train_and_save, if_pos h]
  exact ⟨rfl, rfl, rfl, by simp⟩

/-- **C6 witness**: a training attempt with 40 resolved markets (below the
50-market gate) produces no registry entry, no artifact, and no model id. -/
theorem claim_C6_witness :
    (train_and_save (List.replicate 40 { created_at := none, resolved_at := none })
        "id-1" true "gbdt_correction" "v1").result = none ∧
    (train_and_save (List.replicate 40 { created_at := none, resolved_at := none })
        "id-1" true "gbdt_correction" "v1").artifactWrites = [] ∧
    (train_and_save (List.replicate 40 { created_at := none, resolved_at := none })
        "id-1" true "gbdt_correction" "v1").registryInserts = [] ∧
    "Not enough resolved markets" ∈
      (train_and_save (List.replicate 40 { created_at := none, resolved_at := none })
        "id-1" true "gbdt_correction" "v1").messages :=
  claim_C6 (List.replicate 40 { created_at := none, resolved_at := none })
    "id-1" true "gbdt_correction" "v1" (by simp [min_resolved_markets_gbdt])

/-- **C7.** `save_model` always persists the artifact under
`name/version` and returns the generated model identifier, even when the
registry insert fails (the failure is reported as a warning, not
re-raised, and the file write is not rolled back); when the metadata
record is written it has `approved = false` and `deployed = false`. -/
theorem claim_C7 (model_id : String) (insert_ok : Bool)
    (name version : String) (train_size : ℕ) :
    (save_model model_id insert_ok name version train_size).artifactWrites =
      [name ++ "/" ++ version ++ ".pkl"] ∧
    (save_model model_id insert_ok name version train_size).result = some model_id ∧
    (∀ r ∈ (save_model model_id insert_ok name version train_size).registryInserts,
      r.approved = false ∧ r.deployed = false) ∧
    (insert_ok = false →
      (save_model model_id insert_ok name version train_size).registryInserts = [] ∧
      "Warning: Could not register model in database" ∈
        (save_model model_id insert_ok name version train_size).messages) := by
  cases insert_ok <;>
    refine ⟨rfl, rfl, ?_, ?_⟩ <;>
    simp [save_model]

/-- **C7 witness**: a concrete save whose registry insert fails still
writes the artifact and returns the model id. -/
theorem claim_C7_witness :
    (save_model "id-2" false "gbdt_correction" "v2" 60).artifactWrites =
      ["gbdt_correction" ++ "/" ++ "v2" ++ ".pkl"] ∧
    (save_model "id-2" false "gbdt_correction" "v2" 60).result = some "id-2" ∧
    (∀ r ∈ (save_model "id-2" false "gbdt_correction" "v2" 60).registryInserts,
      r.approved = false ∧ r.deployed = false) ∧
    (false = false →
      (save_model "id-2" false "gbdt_correction" "v2" 60).registryInserts = [] ∧
      "Warning: Could not register model in database" ∈
        (save_model "id-2" false "gbdt_correction" "v2" 60).messages) :=
  claim_C7 "id-2" false "gbdt_correction" "v2" 60

lemma fold_step_go {α : Type} (t : List (α × ℚ)) :
    ∀ (m0 : α) (r0 : ℚ),
      ∃ (m : α) (r : ℚ), t.foldl fold_step (some m0, (r0 : WithTop ℚ)) =
          (some m, (r : WithTop ℚ)) ∧
        ((m = m0 ∧ r = r0) ∨ (m, r) ∈ t) ∧ r ≤ r0 ∧ ∀ p ∈ t, r ≤ p.2 := by
  induction t with
  | nil =>
      intro m0 r0
      exact ⟨m0, r0, rfl, Or.inl ⟨rfl, rfl⟩, le_rfl, by simp⟩
  | cons c t ih =>
      intro m0 r0
      rw [List.foldl_cons]
      by_cases h : (c.2 : WithTop ℚ) < ((r0 : ℚ) : WithTop ℚ)
      · rw [fold_step, if_pos h]
        rcases ih c.1 c.2 with ⟨m, r, heq, hmem, hle, hall⟩
        have hcr0 : c.2 < r0 := by exact_mod_cast h
        refine ⟨m, r, heq, ?_, le_of_lt (lt_of_le_of_lt hle hcr0), ?_⟩
        · rcases hmem with ⟨hm, hr⟩ | hmem
          · subst hm; subst hr
            exact Or.inr (by rw [Prod.mk.eta]; exact List.mem_cons_self _ _)
          · exact Or.inr (List.mem_cons_of_mem _ hmem)
        · intro p hp
          rcases List.mem_cons.mp hp with rfl | hp
          · exact hle
          · exact hall p hp
      · rw [fold_step, if_neg h]
        rcases ih m0 r0 with ⟨m, r, heq, hmem, hle, hall⟩
        have hr0c : r0 ≤ c.2 := by
          have := not_lt.mp h
          exact_mod_cast this
        refine ⟨m, r, heq, ?_, hle, ?_⟩
        · rcases hmem with hm | hmem
          · exact Or.inl hm
          · exact Or.inr (List.mem_cons_of_mem _ hmem)
        · intro p hp
          rcases List.mem_cons.mp hp with rfl | hp
          · exact le_trans hle hr0c
          · exact hall p hp

/-- **C8.** For every cross-validated training run with at least one
fold, the fold-selection loop of `train_correction_model` returns the
model trained in a fold achieving the lowest held-out validation RMSE
across all folds (not the last-trained fold). -/
theorem claim_C8 {α : Type} (folds : List (α × ℚ)) (hne : folds ≠ []) :
    ∃ (m : α) (r : ℚ), train_correction_model folds = (some m, (r : WithTop ℚ)) ∧
      (m, r) ∈ folds ∧ ∀ p ∈ folds, r ≤ p.2 := by
  rcases folds with _ | ⟨c, t⟩
  · exact absurd rfl hne
  rw [train_correction_model, List.foldl_cons]
  have hstep : fold_step ((none : Option α), (⊤ : WithTop ℚ)) c =
      (some c.1, (c.2 : WithTop ℚ)) := by
    rw [fold_step, if_pos (WithTop.coe_lt_top c.2)]
  rw [hstep]
  rcases fold_step_go t c.1 c.2 with ⟨m, r, heq, hmem, hle, hall⟩
  refine ⟨m, r, heq, ?_, ?_⟩
  · rcases hmem with ⟨hm, hr⟩ | hmem
    · subst hm; subst hr
      rw [Prod.mk.eta]
      exact List.mem_cons_self _ _
    · exact List.mem_cons_of_mem _ hmem
  · intro p hp
    rcases List.mem_cons.mp hp with rfl | hp
    · exact hle
    · exact hall p hp

/-- **C8 witness**: with fold results (RMSE 3, then 1, then 2) the
selected model is the middle fold's, achieving the minimum RMSE 1 —
not the last-trained fold. -/
theorem claim_C8_witness :
    ∃ (m : ℕ) (r : ℚ), train_correction_model [((0 : ℕ), (3 : ℚ)), (1, 1), (2, 2)] =
        (some m, (r : WithTop ℚ)) ∧
      (m, r) ∈ [((0 : ℕ), (3 : ℚ)), (1, 1), (2, 2)] ∧
      ∀ p ∈ [((0 : ℕ), (3 : ℚ)), (1, 1), (2, 2)], r ≤ p.2 :=
  claim_C8 [((0 : ℕ), (3 : ℚ)), (1, 1), (2, 2)] (List.cons_ne_nil _ _)
